import Mathlib

/-!
Verification of the "atajados" project-tracking application.

Shallow embedding of the data layer (`database.py`), the project manager
(`project_manager.py`) and the two tab-level aggregation routines
(`tabs/avance_tab.py`, `tabs/items_tab.py`).

SQLite `REAL` values are modelled as `ℚ` (exact arithmetic); nullable
columns are modelled as `Option`.  Row ids and SQLite `INTEGER` columns
are modelled as `Int`.
-/

namespace Atajados

/-- A row of the `items` table (schema in `Database._init_tables`).
`total` is assumed non-NULL: `get_project_progress` multiplies it
directly, which would raise `TypeError` on a NULL in Python. -/
structure Item where
  id : Int
  code : String
  name : Option String
  unit : Option String
  total : ℚ
  unit_price : Option ℚ
  incidence : Option ℚ
  active : Option Int
  progress : Option ℚ
deriving DecidableEq

/-- A row of the `atajados` table (only the columns the verified code
touches; the remaining text columns are irrelevant to every claim). -/
structure Atajado where
  id : Int
  number : Int
  status : Option String
  porcentaje : Option ℚ
deriving DecidableEq

/-- A row of the `avances` table. -/
structure Avance where
  id : Int
  atajado_id : Int
  item_id : Int
  date : Option String
  quantity : Option ℚ
  start_date : Option String
  end_date : Option String
  comment : Option String
deriving DecidableEq

/-- The database state: the three tables the claims are about. -/
structure DB where
  items : List Item
  atajados : List Atajado
  avances : List Avance
deriving DecidableEq

/-- Python truthiness of a nullable SQLite INTEGER (`if active:`). -/
def truthy : Option Int → Bool
  | some n => n != 0
  | none => false

/-- The `COALESCE(unit_price, incidence, 0)` of `get_project_progress`. -/
def pu (it : Item) : ℚ :=
  match it.unit_price with
  | some v => v
  | none =>
    match it.incidence with
    | some v => v
    | none => 0

/-- Python `prog or 0.0`: `or` yields the right operand when the left is
`None` or `0.0`; extensionally this is `Option.getD 0`. -/
def progOr0 (p : Option ℚ) : ℚ := p.getD 0

/-- The query `SELECT COALESCE(AVG(quantity), 0) FROM avances WHERE item_id = ?`:
SQL `AVG` ignores NULLs and returns NULL (coalesced to 0) when no
non-NULL value exists. -/
def avgQuantity (avs : List Avance) (iid : Int) : ℚ :=
  let qs := (avs.filter (fun a => a.item_id == iid)).filterMap (fun a => a.quantity)
  if qs.length = 0 then 0 else qs.sum / qs.length

/-- The per-item percentage used by `get_project_progress`. -/
def itemPct (db : DB) (it : Item) : ℚ :=
  if truthy it.active then avgQuantity db.avances it.id else progOr0 it.progress

/-- The accumulated `total_cost` of the loop in `get_project_progress`. -/
def total_cost (db : DB) : ℚ :=
  (db.items.map (fun it => it.total * pu it)).sum

/-- The accumulated `executed` of the loop in `get_project_progress`. -/
def executed (db : DB) : ℚ :=
  (db.items.map (fun it => itemPct db it / 100 * (it.total * pu it))).sum

/-- Model of `Database.get_project_progress` (src/database.py, lines 198-227). -/
def get_project_progress (db : DB) : ℚ :=
  if db.items = [] then 0
  else if total_cost db ≠ 0 then executed db / total_cost db * 100 else 0

/-- Spec-side formula: the plain average of a list of values. -/
def spec_avg (qs : List ℚ) : ℚ := qs.sum / qs.length

/-- Spec-side formula: the `avances.quantity` values recorded for an item. -/
def spec_item_quantities (db : DB) (it : Item) : List ℚ :=
  (db.avances.filter (fun a => a.item_id == it.id)).filterMap (fun a => a.quantity)

/-- Spec-side formula: per-item executed percentage — average of the item's
`avances.quantity` if active, else its manual `progress` fallback. -/
def spec_item_pct (db : DB) (it : Item) : ℚ :=
  if truthy it.active then spec_avg (spec_item_quantities db it) else progOr0 it.progress

/-- Spec-side formula: an item's cost is its total quantity times its
(effective) unit price. -/
def spec_item_cost (it : Item) : ℚ := it.total * pu it

/-- Spec-side formula: total executed cost. -/
def spec_executed_cost (db : DB) : ℚ :=
  (db.items.map (fun it => spec_item_pct db it / 100 * spec_item_cost it)).sum

/-- Spec-side formula: total project cost. -/
def spec_total_cost (db : DB) : ℚ :=
  (db.items.map spec_item_cost).sum

/-- Convenience builders for concrete database states. -/
def mkItem (id : Int) (code : String) (total : ℚ) (up inc : Option ℚ)
    (act : Option Int) (prog : Option ℚ) : Item :=
  { id := id, code := code, name := none, unit := none, total := total,
    unit_price := up, incidence := inc, active := act, progress := prog }

def mkAvance (id aid iid : Int) (q : Option ℚ) : Avance :=
  { id := id, atajado_id := aid, item_id := iid, date := none, quantity := q,
    start_date := none, end_date := none, comment := none }

def mkAtajado (id number : Int) : Atajado :=
  { id := id, number := number, status := none, porcentaje := none }

/-- Round half to even on `ℚ` (the tie-breaking rule of Python `round`). -/
def round_half_even (x : ℚ) : ℤ :=
  let f := ⌊x⌋
  let r := x - f
  if r < 1 / 2 then f
  else if 1 / 2 < r then f + 1
  else if f % 2 = 0 then f else f + 1

/-- Python `round(x, ndigits)` modelled over exact rationals. -/
def py_round (x : ℚ) (ndigits : ℕ) : ℚ :=
  (round_half_even (x * 10 ^ ndigits) : ℚ) / 10 ^ ndigits

/-- The `LEFT JOIN avances a ON a.item_id = i.id AND a.atajado_id = ?` of
`AvanceTab._recalcular_estado`: the (possibly empty) list of matching
`avances` rows joined to one item, a single NULL row when none match. -/
def left_join_quantities (avs : List Avance) (a : Int) (it : Item) : List (Option ℚ) :=
  let ms := avs.filter (fun av => av.atajado_id == a && av.item_id == it.id)
  if ms = [] then [none] else ms.map (fun av => av.quantity)

/-- Model of `AvanceTab._recalcular_estado` (src/tabs/avance_tab.py, lines 344-367),
restricted to the percentage it computes and stores; `a` is
`self.current_atajado`.  `n_ata` is `COUNT(*) FROM atajados` with the
Python `or 1` fallback; the query keeps exactly the rows with SQL
`i.active = 1` (a NULL or non-1 flag is excluded, unlike the Python
truthiness used by `get_project_progress`), and selects
`i.total, i.incidence, COALESCE(a.quantity, 0)`.  The loop accumulates
`val = (total / n_ata) * incidence` and `val * pct / 100`; multiplying a
NULL `incidence` raises `TypeError`, modelled as `none`. -/
def recalcular_estado_pct (db : DB) (a : Int) : Option ℚ :=
  let n_ata : ℚ := (if db.atajados.length = 0 then 1 else (db.atajados.length : ℚ))
  let rows := (db.items.filter (fun it => it.active == some 1)).flatMap
    (fun it => (left_join_quantities db.avances a it).map
      (fun q => (it.total, it.incidence, q.getD 0)))
  if rows.all (fun r => r.2.1.isSome) then
    let total_val := (rows.map (fun r => r.1 / n_ata * r.2.1.getD 0)).sum
    let ejec_val := (rows.map (fun r => r.1 / n_ata * r.2.1.getD 0 * r.2.2 / 100)).sum
    some (if total_val ≠ 0 then py_round (ejec_val / total_val * 100) 1 else 0)
  else none

/-- Model of `ItemsTab._calc_global_pct` (src/tabs/items_tab.py, lines 147-158):
`SELECT COALESCE(SUM(quantity),0) FROM avances WHERE item_id=?`, divided by
`self._atajados_total` (a cached `COUNT(*) FROM atajados` with the Python
`or 1` fallback, refreshed before use), capped at 100 and rounded to the
nearest integer. -/
def calc_global_pct (db : DB) (iid : Int) : ℚ :=
  let atajados_total : ℚ :=
    (if db.atajados.length = 0 then 1 else (db.atajados.length : ℚ))
  let ejecutado :=
    ((db.avances.filter (fun a => a.item_id == iid)).filterMap (fun a => a.quantity)).sum
  let pct := ejecutado / atajados_total
  py_round (min pct 100) 0

/-- Python `str.strip` over the character list of a string. -/
def py_strip (l : List Char) : List Char :=
  ((l.dropWhile Char.isWhitespace).reverse.dropWhile Char.isWhitespace).reverse

/-- Python `str.upper` (ASCII). -/
def py_upper (s : String) : String := String.mk (s.data.map Char.toUpper)

/-- First whitespace-delimited token of a stripped SQL string:
`sql.strip().split(maxsplit=1)[0]` (`none` models the `IndexError` path
on an all-whitespace string, which is raised before `mark_modified`). -/
def first_keyword (sql : String) : Option String :=
  match py_strip sql.data with
  | [] => none
  | l => some (String.mk (l.takeWhile (fun c => !c.isWhitespace)))

/-- The write keywords intercepted by `TrackedDatabase.execute`. -/
def write_keywords : List String :=
  ["INSERT", "UPDATE", "DELETE", "CREATE", "DROP", "ALTER", "REPLACE"]

/-- Dirty-flag effect of `TrackedDatabase.execute` followed by
`ProyectoManager.mark_modified` (src/project_manager.py, lines 29-42 and
60-67): `mark_modified` is called exactly when the first keyword,
upper-cased, is a write keyword, and it leaves a true flag true. -/
def tracked_execute_dirty (dirty : Bool) (sql : String) : Bool :=
  match first_keyword sql with
  | none => dirty
  | some kw => if write_keywords.contains (py_upper kw) then true else dirty

/-- Schema invariant `items.code TEXT UNIQUE NOT NULL` (plus the
`idx_items_code` unique index): no two rows share a code. -/
def items_codes_unique (l : List Item) : Prop :=
  l.Pairwise (fun x y => x.code ≠ y.code)

/-- Schema invariant `atajados.number INTEGER UNIQUE`: no two rows share a
number (the application always inserts a concrete number). -/
def atajados_numbers_unique (l : List Atajado) : Prop :=
  l.Pairwise (fun x y => x.number ≠ y.number)

/-- Schema invariant `UNIQUE(atajado_id, item_id)` on `avances`. -/
def avances_pairs_unique (l : List Avance) : Prop :=
  l.Pairwise (fun x y => (x.atajado_id, x.item_id) ≠ (y.atajado_id, y.item_id))

/-- An `INSERT INTO items(...)` under the SQLite UNIQUE constraint on `code`:
the row is appended, unless a row with the same code exists, in which case
SQLite raises `IntegrityError` and the table is unchanged. -/
def insert_item (l : List Item) (it : Item) : Except String (List Item) :=
  if l.any (fun x => x.code == it.code) then
    .error "UNIQUE constraint failed: items.code"
  else .ok (l ++ [it])

/-- An `INSERT INTO atajados(...)` under the UNIQUE constraint on `number`. -/
def insert_atajado (l : List Atajado) (at' : Atajado) : Except String (List Atajado) :=
  if l.any (fun x => x.number == at'.number) then
    .error "UNIQUE constraint failed: atajados.number"
  else .ok (l ++ [at'])

/-- The `AvanceTab.save_progress` upsert (src/tabs/avance_tab.py, lines
294-341): `INSERT INTO avances(...) VALUES(...) ON CONFLICT(atajado_id,
item_id) DO UPDATE SET date=excluded.date, quantity=excluded.quantity,
start_date=excluded.start_date, end_date=excluded.end_date,
comment=excluded.comment`.  The conflicting row keeps its `id`. -/
def upsert_avance (l : List Avance) (n : Avance) : List Avance :=
  if l.any (fun av => av.atajado_id == n.atajado_id && av.item_id == n.item_id) then
    l.map (fun av =>
      if av.atajado_id == n.atajado_id && av.item_id == n.item_id then
        { av with date := n.date, quantity := n.quantity, start_date := n.start_date,
                  end_date := n.end_date, comment := n.comment }
      else av)
  else l ++ [n]

/-- Success-side of `insert_item` satisfies the code-uniqueness invariant
(trivially true on the error side, where the table is unchanged). -/
def ok_items_unique : Except String (List Item) → Prop
  | .ok l => items_codes_unique l
  | .error _ => True

/-- Success-side of `insert_atajado` satisfies the number-uniqueness
invariant. -/
def ok_atajados_unique : Except String (List Atajado) → Prop
  | .ok l => atajados_numbers_unique l
  | .error _ => True

/-- Model of `Proyecto` (src/project_manager.py): the active project, a database
plus an on-disk path. -/
structure Proyecto where
  db : DB
  path : Option String
deriving DecidableEq

/-- The mutable state of `ProyectoManager` that the claims concern. -/
structure PMState where
  proyecto : Proyecto
  dirty : Bool
  temp_dir : Option String
deriving DecidableEq

/-- A zip archive: its entry names, and the database payload stored at
entry `atajados.db` when that entry is present. -/
structure Archive where
  names : List String
  payload : DB
deriving DecidableEq

/-- Model of `Path(p).with_suffix(".spkg")` for an ordinary final component: drop
the extension after the last dot of the file name (a leading dot marks a
hidden file, not an extension) and append `.spkg`. -/
def py_with_suffix_spkg (p : String) : String :=
  let parts := p.splitOn "/"
  let name := parts.getLastD ""
  let chars := name.toList
  let stemLen :=
    match (chars.reverse.takeWhile (fun c => c ≠ '.')).length with
    | n =>
      if n < chars.length - 1 || (n = chars.length - 1 && chars.headD ' ' ≠ '.') then
        chars.length - (n + 1)
      else chars.length
  let stem := String.mk (chars.take stemLen)
  String.intercalate "/" (parts.dropLast ++ [stem ++ ".spkg"])

/-- Model of `ProyectoManager.save_project` (src/project_manager.py, lines 94-143).
`images_dir` is the contents of `IMAGES_DIR` (`none` when the directory
does not exist, otherwise the relative paths of its files).  Returns the
new manager state, the boolean result, and the entry list of the written
archive (`none` when nothing was written). -/
def save_project (st : PMState) (images_dir : Option (List String))
    (pathArg : Option String) : PMState × Bool × Option (List String) :=
  let st :=
    match pathArg with
    | some p => { st with proyecto := { st.proyecto with path := some (py_with_suffix_spkg p) } }
    | none => st
  match st.proyecto.path with
  | none => (st, false, none)
  | some _ =>
    let entries := "atajados.db" ::
      (match images_dir with
       | none => []
       | some files => files.map (fun f => "images/" ++ f))
    ({ st with dirty := false }, true, some entries)

/-- Model of `ProyectoManager.open_project` (src/project_manager.py, lines 76-92).
Extracts the archive into a fresh temp dir (after `_cleanup` of the old
one); raises `FileNotFoundError` — returned as `some msg`, with the temp
dir removed — when the archive holds no `atajados.db`; otherwise installs
a new `Proyecto` over the extracted database and clears the dirty flag. -/
def open_project (st : PMState) (ar : Archive) (path : String) :
    PMState × Option String :=
  let st1 := { st with temp_dir := none }
  if "atajados.db" ∈ ar.names then
    ({ proyecto := { db := ar.payload, path := some path }, dirty := false,
       temp_dir := some "proj_tmp" }, none)
  else
    (st1, some "El paquete no contiene atajados.db")

/-- An `items` row as seen by `Database._migrations` (only the columns the
migrations read or write). -/
structure MItemRow where
  code : Option String
  unit_price : Option ℚ
  incidence : Option ℚ
deriving DecidableEq

/-- An `atajados` row as seen by `Database._migrations`. -/
structure MAtajadoRow where
  coord_e : Option ℚ
  coord_n : Option ℚ
  este : Option ℚ
  norte : Option ℚ
  porcentaje : Option ℚ
deriving DecidableEq

/-- Schema-plus-contents state over which `Database._migrations` acts:
the declared column lists, the table contents, and whether the
`idx_items_code` unique index exists. -/
structure MigState where
  items_cols : List String
  atajados_cols : List String
  items : List MItemRow
  atajados : List MAtajadoRow
  idx_items_code : Bool
deriving DecidableEq

/-- Step `ALTER TABLE items ADD COLUMN code TEXT DEFAULT ''`, guarded by
`_column_exists("items", "code")`. -/
def mig_items_code (s : MigState) : MigState :=
  if "code" ∈ s.items_cols then s
  else { s with items_cols := s.items_cols ++ ["code"],
                items := s.items.map (fun r => { r with code := some "" }) }

/-- Step `ALTER TABLE items ADD COLUMN unit_price REAL DEFAULT 0` guarded by
`_column_exists("items", "unit_price")`, followed by
`UPDATE items SET unit_price = incidence` when `incidence` exists. -/
def mig_items_unit_price (s : MigState) : MigState :=
  if "unit_price" ∈ s.items_cols then s
  else
    let s1 : MigState :=
      { s with items_cols := s.items_cols ++ ["unit_price"],
               items := s.items.map (fun r => { r with unit_price := some 0 }) }
    if "incidence" ∈ s1.items_cols then
      { s1 with items := s1.items.map (fun r => { r with unit_price := r.incidence }) }
    else s1

/-- Step `ALTER TABLE atajados ADD COLUMN este REAL` (new column NULL) then
`UPDATE atajados SET este = coord_e`, guarded on column existence. -/
def mig_atajados_este (s : MigState) : MigState :=
  if "este" ∈ s.atajados_cols then s
  else
    let s1 : MigState :=
      { s with atajados_cols := s.atajados_cols ++ ["este"],
               atajados := s.atajados.map (fun r => { r with este := none }) }
    { s1 with atajados := s1.atajados.map (fun r => { r with este := r.coord_e }) }

/-- Step `ALTER TABLE atajados ADD COLUMN norte REAL` then
`UPDATE atajados SET norte = coord_n`, guarded on column existence. -/
def mig_atajados_norte (s : MigState) : MigState :=
  if "norte" ∈ s.atajados_cols then s
  else
    let s1 : MigState :=
      { s with atajados_cols := s.atajados_cols ++ ["norte"],
               atajados := s.atajados.map (fun r => { r with norte := none }) }
    { s1 with atajados := s1.atajados.map (fun r => { r with norte := r.coord_n }) }

/-- Step `ALTER TABLE atajados ADD COLUMN porcentaje REAL DEFAULT 0`, guarded. -/
def mig_atajados_porcentaje (s : MigState) : MigState :=
  if "porcentaje" ∈ s.atajados_cols then s
  else { s with atajados_cols := s.atajados_cols ++ ["porcentaje"],
                atajados := s.atajados.map (fun r => { r with porcentaje := some 0 }) }

/-- Step `CREATE UNIQUE INDEX IF NOT EXISTS idx_items_code ON items(code)`. -/
def mig_create_idx (s : MigState) : MigState :=
  { s with idx_items_code := true }

/-- Model of `Database._migrations` (src/database.py, lines 159-195): the guarded
column additions followed by the idempotent index creation. -/
def migrations (s : MigState) : MigState :=
  mig_create_idx (mig_atajados_porcentaje (mig_atajados_norte (mig_atajados_este
    (mig_items_unit_price (mig_items_code s)))))

/-- State threaded through `get_project_progress`: the database, the
manager's dirty flag, and a counter of non-SELECT statements handed to the
SQLite connection (the runtime model: a SELECT leaves the database
unchanged, anything else is a write). -/
structure RunState where
  db : DB
  dirty : Bool
  writes : Nat
deriving DecidableEq

/-- Effect of `Database.fetchone` / `Database.fetchall` on the state:
the cursor executes the statement (counted as a write unless it is a
SELECT) and fetches.  `TrackedDatabase` does not override these helpers,
so the dirty flag is untouched. -/
def fetch_step (st : RunState) (sql : String) : RunState :=
  { st with writes := if first_keyword sql = some "SELECT" then st.writes else st.writes + 1 }

/-- The items query issued by `get_project_progress`. -/
def items_query_sql : String :=
  "\n            SELECT id,\n                   total,\n                   COALESCE(unit_price, incidence, 0) AS pu,\n                   active,\n                   progress\n            FROM items\n            "

/-- The per-item average query issued by `get_project_progress`. -/
def avg_quantity_sql : String :=
  "SELECT COALESCE(AVG(quantity), 0) FROM avances WHERE item_id = ?"

/-- One iteration of the `get_project_progress` loop, threading the
accumulated `(total_cost, executed, connection state)`: an active item
issues the AVG query through `fetchone`, an inactive one reads its
`progress` fallback locally. -/
def gpp_step (acc : ℚ × ℚ × RunState) (it : Item) : ℚ × ℚ × RunState :=
  let cost := it.total * pu it
  if truthy it.active then
    let st' := fetch_step acc.2.2 avg_quantity_sql
    (acc.1 + cost, acc.2.1 + avgQuantity st'.db.avances it.id / 100 * cost, st')
  else
    (acc.1 + cost, acc.2.1 + progOr0 it.progress / 100 * cost, acc.2.2)

/-- Run of `Database.get_project_progress` with its statement traffic made
explicit: every `fetchall`/`fetchone` call threads the state through
`fetch_step` with the literal SQL it issues. -/
def gpp_run (st0 : RunState) : ℚ × RunState :=
  let st1 := fetch_step st0 items_query_sql
  let rows := st1.db.items
  if rows = [] then (0, st1)
  else
    let r := rows.foldl gpp_step (0, 0, st1)
    (if r.1 ≠ 0 then r.2.1 / r.1 * 100 else 0, r.2.2)

end Atajados


namespace Atajados

/-- C8: `Database.get_project_progress` never divides by zero: it returns
`0.0` when the `items` table is empty, and also when the summed total cost
(total quantity times unit price, over all items) is zero. -/
theorem C8_progress_no_division_by_zero (db : DB) :
    (db.items = [] → get_project_progress db = 0) ∧
    (total_cost db = 0 → get_project_progress db = 0) := by
  refine ⟨fun h => ?_, fun h => ?_⟩
  · simp [get_project_progress, h]
  · simp [get_project_progress, h]

theorem C8_progress_no_division_by_zero_witness :
    get_project_progress { items := [], atajados := [], avances := [] } = 0 ∧
    get_project_progress
      { items := [mkItem 1 "A" 0 (some 5) none (some 1) none],
        atajados := [], avances := [] } = 0 := by
  constructor
  · exact (C8_progress_no_division_by_zero _).1 rfl
  · exact (C8_progress_no_division_by_zero _).2 (by simp [total_cost, mkItem, pu])

/-- C4: `TrackedDatabase.execute` marks the manager dirty exactly for
statements whose first keyword (upper-cased) is INSERT, UPDATE, DELETE,
CREATE, DROP, ALTER or REPLACE, and leaves the flag unchanged for every
other statement. -/
theorem C4_tracked_execute_dirty_flag (dirty : Bool) (sql kw : String)
    (h : first_keyword sql = some kw) :
    (write_keywords.contains (py_upper kw) = true →
      tracked_execute_dirty dirty sql = true) ∧
    (write_keywords.contains (py_upper kw) = false →
      tracked_execute_dirty dirty sql = dirty) := by
  unfold tracked_execute_dirty
  rw [h]
  refine ⟨fun hc => ?_, fun hc => ?_⟩
  · show (if write_keywords.contains (py_upper kw) = true then true else dirty) = true
    rw [hc]
    simp
  · show (if write_keywords.contains (py_upper kw) = true then true else dirty) = dirty
    rw [hc]
    simp

theorem C4_tracked_execute_dirty_flag_witness :
    tracked_execute_dirty false "insert INTO items(code) VALUES (1)" = true ∧
    tracked_execute_dirty false " SELECT * FROM items" = false := by
  constructor
  · exact (C4_tracked_execute_dirty_flag false _ "insert" (by decide)).1 (by decide)
  · exact (C4_tracked_execute_dirty_flag false _ "SELECT" (by decide)).2 (by decide)

/-- C5: `ProyectoManager.save_project` returns `False` and writes nothing
when called without a path while none is stored; otherwise it returns
`True`, writes an archive holding `atajados.db` plus one `images/` entry
per file of the images directory, and clears the dirty flag. -/
theorem C5_save_project_archive (st : PMState) (images_dir : Option (List String))
    (pathArg : Option String) :
    if pathArg = none ∧ st.proyecto.path = none then
      save_project st images_dir pathArg = (st, false, none)
    else
      (save_project st images_dir pathArg).2.1 = true ∧
      (save_project st images_dir pathArg).2.2 =
        some ("atajados.db" :: (images_dir.getD []).map (fun f => "images/" ++ f)) ∧
      (save_project st images_dir pathArg).1.dirty = false := by
  split
  · rename_i h
    obtain ⟨h1, h2⟩ := h
    subst h1
    simp [save_project, h2]
  · rename_i h
    cases hp : pathArg with
    | some p =>
      cases images_dir <;> simp [save_project]
    | none =>
      subst hp
      cases hq : st.proyecto.path with
      | none => exact absurd ⟨rfl, hq⟩ h
      | some q =>
        cases images_dir <;> simp [save_project, hq]

/-- C6: `ProyectoManager.open_project` on an archive without an
`atajados.db` entry raises `FileNotFoundError` and leaves the currently
loaded project (database object and stored path) unchanged. -/
theorem C6_open_project_missing_db (st : PMState) (ar : Archive) (path : String)
    (h : "atajados.db" ∉ ar.names) :
    (open_project st ar path).2 = some "El paquete no contiene atajados.db" ∧
    (open_project st ar path).1.proyecto = st.proyecto := by
  simp [open_project, h]

theorem C6_open_project_missing_db_witness :
    (open_project
        { proyecto := { db := { items := [], atajados := [], avances := [] },
                        path := some "old.spkg" },
          dirty := true, temp_dir := none }
        { names := ["images/a.png"], payload := { items := [], atajados := [], avances := [] } }
        "broken.spkg").2 = some "El paquete no contiene atajados.db" ∧
    (open_project
        { proyecto := { db := { items := [], atajados := [], avances := [] },
                        path := some "old.spkg" },
          dirty := true, temp_dir := none }
        { names := ["images/a.png"], payload := { items := [], atajados := [], avances := [] } }
        "broken.spkg").1.proyecto =
      { db := { items := [], atajados := [], avances := [] }, path := some "old.spkg" } :=
  C6_open_project_missing_db _ _ _ (by decide)

/- Helper lemmas for the idempotence of `Database._migrations`: each
migration step only ever appends column names, each guarded step is the
identity once its column exists, and after one full run every guard
column exists. -/

lemma mig_items_code_items_cols_mem (s : MigState) (c : String)
    (h : c ∈ s.items_cols) : c ∈ (mig_items_code s).items_cols := by
  unfold mig_items_code
  split
  · exact h
  · exact List.mem_append_left _ h

lemma mig_items_unit_price_items_cols_mem (s : MigState) (c : String)
    (h : c ∈ s.items_cols) : c ∈ (mig_items_unit_price s).items_cols := by
  simp only [mig_items_unit_price]
  split
  · exact h
  · split
    · exact List.mem_append_left _ h
    · exact List.mem_append_left _ h

lemma mig_atajados_este_items_cols (s : MigState) :
    (mig_atajados_este s).items_cols = s.items_cols := by
  unfold mig_atajados_este
  split <;> rfl

lemma mig_atajados_norte_items_cols (s : MigState) :
    (mig_atajados_norte s).items_cols = s.items_cols := by
  unfold mig_atajados_norte
  split <;> rfl

lemma mig_atajados_porcentaje_items_cols (s : MigState) :
    (mig_atajados_porcentaje s).items_cols = s.items_cols := by
  unfold mig_atajados_porcentaje
  split <;> rfl

lemma mig_atajados_este_atajados_cols_mem (s : MigState) (c : String)
    (h : c ∈ s.atajados_cols) : c ∈ (mig_atajados_este s).atajados_cols := by
  unfold mig_atajados_este
  split
  · exact h
  · exact List.mem_append_left _ h

lemma mig_atajados_norte_atajados_cols_mem (s : MigState) (c : String)
    (h : c ∈ s.atajados_cols) : c ∈ (mig_atajados_norte s).atajados_cols := by
  unfold mig_atajados_norte
  split
  · exact h
  · exact List.mem_append_left _ h

lemma mig_atajados_porcentaje_atajados_cols_mem (s : MigState) (c : String)
    (h : c ∈ s.atajados_cols) : c ∈ (mig_atajados_porcentaje s).atajados_cols := by
  unfold mig_atajados_porcentaje
  split
  · exact h
  · exact List.mem_append_left _ h

lemma migrations_code_mem (s : MigState) : "code" ∈ (migrations s).items_cols := by
  unfold migrations mig_create_idx
  rw [mig_atajados_porcentaje_items_cols, mig_atajados_norte_items_cols,
    mig_atajados_este_items_cols]
  apply mig_items_unit_price_items_cols_mem
  unfold mig_items_code
  split
  · assumption
  · exact List.mem_append_right _ (List.mem_singleton.mpr rfl)

lemma migrations_unit_price_mem (s : MigState) :
    "unit_price" ∈ (migrations s).items_cols := by
  unfold migrations mig_create_idx
  rw [mig_atajados_porcentaje_items_cols, mig_atajados_norte_items_cols,
    mig_atajados_este_items_cols]
  simp only [mig_items_unit_price]
  split
  · assumption
  · split
    · exact List.mem_append_right _ (List.mem_singleton.mpr rfl)
    · exact List.mem_append_right _ (List.mem_singleton.mpr rfl)

lemma migrations_este_mem (s : MigState) : "este" ∈ (migrations s).atajados_cols := by
  unfold migrations mig_create_idx
  apply mig_atajados_porcentaje_atajados_cols_mem
  apply mig_atajados_norte_atajados_cols_mem
  unfold mig_atajados_este
  split
  · assumption
  · exact List.mem_append_right _ (List.mem_singleton.mpr rfl)

lemma migrations_norte_mem (s : MigState) : "norte" ∈ (migrations s).atajados_cols := by
  unfold migrations mig_create_idx
  apply mig_atajados_porcentaje_atajados_cols_mem
  unfold mig_atajados_norte
  split
  · assumption
  · exact List.mem_append_right _ (List.mem_singleton.mpr rfl)

lemma migrations_porcentaje_mem (s : MigState) :
    "porcentaje" ∈ (migrations s).atajados_cols := by
  unfold migrations mig_create_idx
  unfold mig_atajados_porcentaje
  split
  · assumption
  · exact List.mem_append_right _ (List.mem_singleton.mpr rfl)

lemma migrations_idx (s : MigState) : (migrations s).idx_items_code = true := rfl

lemma mig_items_code_id (s : MigState) (h : "code" ∈ s.items_cols) :
    mig_items_code s = s := by
  unfold mig_items_code
  rw [if_pos h]

lemma mig_items_unit_price_id (s : MigState) (h : "unit_price" ∈ s.items_cols) :
    mig_items_unit_price s = s := by
  unfold mig_items_unit_price
  rw [if_pos h]

lemma mig_atajados_este_id (s : MigState) (h : "este" ∈ s.atajados_cols) :
    mig_atajados_este s = s := by
  unfold mig_atajados_este
  rw [if_pos h]

lemma mig_atajados_norte_id (s : MigState) (h : "norte" ∈ s.atajados_cols) :
    mig_atajados_norte s = s := by
  unfold mig_atajados_norte
  rw [if_pos h]

lemma mig_atajados_porcentaje_id (s : MigState) (h : "porcentaje" ∈ s.atajados_cols) :
    mig_atajados_porcentaje s = s := by
  unfold mig_atajados_porcentaje
  rw [if_pos h]

lemma mig_create_idx_id (s : MigState) (h : s.idx_items_code = true) :
    mig_create_idx s = s := by
  cases s
  simp only [mig_create_idx]
  simp_all

/-- C7: the incremental migrations of `Database._migrations` are
idempotent — a second run performs no schema change and leaves the
contents of every table unchanged, because every column addition is
guarded by a column-existence check and the unique index is created with
IF NOT EXISTS. -/
theorem C7_migrations_idempotent (s : MigState) :
    migrations (migrations s) = migrations s := by
  conv_lhs => rw [migrations]
  rw [mig_items_code_id _ (migrations_code_mem s),
    mig_items_unit_price_id _ (migrations_unit_price_mem s),
    mig_atajados_este_id _ (migrations_este_mem s),
    mig_atajados_norte_id _ (migrations_norte_mem s),
    mig_atajados_porcentaje_id _ (migrations_porcentaje_mem s),
    mig_create_idx_id _ (migrations_idx s)]

/-- The guarded `COALESCE(AVG(quantity), 0)` equals the plain average
formula (over `ℚ`, the empty average `0 / 0` is `0`). -/
lemma avgQuantity_eq_spec_avg (avs : List Avance) (iid : Int) :
    avgQuantity avs iid =
      spec_avg ((avs.filter (fun a => a.item_id == iid)).filterMap (fun a => a.quantity)) := by
  unfold avgQuantity spec_avg
  by_cases h :
      ((avs.filter (fun a => a.item_id == iid)).filterMap (fun a => a.quantity)).length = 0
  · rw [if_pos h]
    rw [List.length_eq_zero.mp h]
    simp
  · rw [if_neg h]

lemma itemPct_eq_spec_item_pct (db : DB) (it : Item) :
    itemPct db it = spec_item_pct db it := by
  unfold itemPct spec_item_pct spec_item_quantities
  rw [avgQuantity_eq_spec_avg]

/-- C1: `Database.get_project_progress` returns the weighted progress
executed cost / total cost scaled to 0-100, with per-item executed
fraction the average of its `avances.quantity` when active and the manual
`progress` fallback when inactive. -/
theorem C1_progress_is_weighted_cost_ratio (db : DB)
    (h : spec_total_cost db ≠ 0) :
    get_project_progress db = spec_executed_cost db / spec_total_cost db * 100 := by
  have htc : total_cost db = spec_total_cost db := rfl
  have hex : executed db = spec_executed_cost db := by
    unfold executed spec_executed_cost
    congr 1
    congr 1
    funext it
    rw [itemPct_eq_spec_item_pct]
    rfl
  have hne : db.items ≠ [] := by
    intro he
    exact h (by simp [spec_total_cost, he])
  unfold get_project_progress
  rw [if_neg hne, htc, hex, if_pos h]

theorem C1_progress_is_weighted_cost_ratio_witness :
    spec_total_cost
        { items := [mkItem 1 "A" 2 (some 5) none (some 1) none],
          atajados := [mkAtajado 1 1],
          avances := [mkAvance 1 1 1 (some 50)] } ≠ 0 ∧
    get_project_progress
        { items := [mkItem 1 "A" 2 (some 5) none (some 1) none],
          atajados := [mkAtajado 1 1],
          avances := [mkAvance 1 1 1 (some 50)] } =
      spec_executed_cost
          { items := [mkItem 1 "A" 2 (some 5) none (some 1) none],
            atajados := [mkAtajado 1 1],
            avances := [mkAvance 1 1 1 (some 50)] } /
        spec_total_cost
          { items := [mkItem 1 "A" 2 (some 5) none (some 1) none],
            atajados := [mkAtajado 1 1],
            avances := [mkAvance 1 1 1 (some 50)] } * 100 := by
  have h : spec_total_cost
      { items := [mkItem 1 "A" 2 (some 5) none (some 1) none],
        atajados := [mkAtajado 1 1],
        avances := [mkAvance 1 1 1 (some 50)] } ≠ 0 := by
    norm_num [spec_total_cost, spec_item_cost, mkItem, pu]
  exact ⟨h, C1_progress_is_weighted_cost_ratio _ h⟩

lemma insert_item_preserves_unique (l : List Item) (it : Item)
    (h : items_codes_unique l) : ok_items_unique (insert_item l it) := by
  by_cases hc : l.any (fun x => x.code == it.code) = true
  · simp only [insert_item, if_pos hc]
    trivial
  · simp only [insert_item, if_neg hc, ok_items_unique]
    unfold items_codes_unique at h ⊢
    rw [List.pairwise_append]
    refine ⟨h, List.pairwise_singleton _ _, ?_⟩
    intro x hx y hy
    rw [List.mem_singleton] at hy
    subst hy
    intro he
    exact hc (List.any_eq_true.mpr ⟨x, hx, by simp [he]⟩)

lemma insert_atajado_preserves_unique (l : List Atajado) (a : Atajado)
    (h : atajados_numbers_unique l) : ok_atajados_unique (insert_atajado l a) := by
  by_cases hc : l.any (fun x => x.number == a.number) = true
  · simp only [insert_atajado, if_pos hc]
    trivial
  · simp only [insert_atajado, if_neg hc, ok_atajados_unique]
    unfold atajados_numbers_unique at h ⊢
    rw [List.pairwise_append]
    refine ⟨h, List.pairwise_singleton _ _, ?_⟩
    intro x hx y hy
    rw [List.mem_singleton] at hy
    subst hy
    intro he
    exact hc (List.any_eq_true.mpr ⟨x, hx, by simp [he]⟩)

lemma upsert_avance_preserves_unique (l : List Avance) (n : Avance)
    (h : avances_pairs_unique l) : avances_pairs_unique (upsert_avance l n) := by
  by_cases hc :
      l.any (fun av => av.atajado_id == n.atajado_id && av.item_id == n.item_id) = true
  · unfold upsert_avance
    rw [if_pos hc]
    unfold avances_pairs_unique at h ⊢
    rw [List.pairwise_map]
    refine h.imp ?_
    intro x y hxy
    by_cases hx : (x.atajado_id == n.atajado_id && x.item_id == n.item_id) = true <;>
      by_cases hy' : (y.atajado_id == n.atajado_id && y.item_id == n.item_id) = true <;>
        simp only [hx, hy', if_pos, if_neg, if_true, if_false] <;> exact hxy
  · unfold upsert_avance
    rw [if_neg hc]
    unfold avances_pairs_unique at h ⊢
    rw [List.pairwise_append]
    refine ⟨h, List.pairwise_singleton _ _, ?_⟩
    intro x hx y hy
    rw [List.mem_singleton] at hy
    subst hy
    intro he
    apply hc
    refine List.any_eq_true.mpr ⟨x, hx, ?_⟩
    have h1 : x.atajado_id = y.atajado_id := congrArg Prod.fst he
    have h2 : x.item_id = y.item_id := congrArg Prod.snd he
    simp [h1, h2]

/-- C3: the uniqueness invariants — `items.code` unique, `atajados.number`
unique, `avances` unique per `(atajado_id, item_id)` — are enforced by the
schema's UNIQUE constraints on insert and preserved by the
`save_progress` upsert, which updates a conflicting row in place instead
of inserting a second one. -/
theorem C3_uniqueness_invariants (db : DB) (it : Item) (a : Atajado) (av : Avance)
    (hI : items_codes_unique db.items)
    (hA : atajados_numbers_unique db.atajados)
    (hV : avances_pairs_unique db.avances) :
    ok_items_unique (insert_item db.items it) ∧
    ok_atajados_unique (insert_atajado db.atajados a) ∧
    avances_pairs_unique (upsert_avance db.avances av) ∧
    (db.avances.any
        (fun x => x.atajado_id == av.atajado_id && x.item_id == av.item_id) = true →
      (upsert_avance db.avances av).length = db.avances.length) := by
  refine ⟨insert_item_preserves_unique _ _ hI,
    insert_atajado_preserves_unique _ _ hA,
    upsert_avance_preserves_unique _ _ hV, fun hc => ?_⟩
  unfold upsert_avance
  rw [if_pos hc, List.length_map]

theorem C3_uniqueness_invariants_witness :
    ok_items_unique
      (insert_item [mkItem 1 "A" 1 none none none none] (mkItem 2 "B" 1 none none none none)) ∧
    ok_atajados_unique (insert_atajado [mkAtajado 1 7] (mkAtajado 2 8)) ∧
    avances_pairs_unique
      (upsert_avance [mkAvance 1 7 1 (some 25)] (mkAvance 9 7 1 (some 80))) ∧
    (upsert_avance [mkAvance 1 7 1 (some 25)] (mkAvance 9 7 1 (some 80))).length =
      [mkAvance 1 7 1 (some 25)].length := by
  have h := C3_uniqueness_invariants
    { items := [mkItem 1 "A" 1 none none none none],
      atajados := [mkAtajado 1 7],
      avances := [mkAvance 1 7 1 (some 25)] }
    (mkItem 2 "B" 1 none none none none) (mkAtajado 2 8) (mkAvance 9 7 1 (some 80))
    (by simp [items_codes_unique]) (by simp [atajados_numbers_unique])
    (by simp [avances_pairs_unique])
  exact ⟨h.1, h.2.1, h.2.2.1, h.2.2.2 (by decide)⟩

lemma fetch_step_select (st : RunState) (sql : String)
    (h : first_keyword sql = some "SELECT") : fetch_step st sql = st := by
  simp [fetch_step, h]

lemma items_query_sql_select : first_keyword items_query_sql = some "SELECT" := by
  decide

lemma avg_quantity_sql_select : first_keyword avg_quantity_sql = some "SELECT" := by
  decide

/-- The progress loop accumulates the two cost sums and leaves the
connection state untouched (the only statement it issues is a SELECT). -/
lemma gpp_foldl (l : List Item) (tc ex : ℚ) (st : RunState) :
    l.foldl gpp_step (tc, ex, st) =
      (tc + (l.map (fun it => it.total * pu it)).sum,
       ex + (l.map (fun it => itemPct st.db it / 100 * (it.total * pu it))).sum,
       st) := by
  induction l generalizing tc ex with
  | nil => simp
  | cons it rest ih =>
    rw [List.foldl_cons]
    by_cases ha : truthy it.active = true
    · have hstep : gpp_step (tc, ex, st) it =
          (tc + it.total * pu it,
           ex + avgQuantity st.db.avances it.id / 100 * (it.total * pu it), st) := by
        simp [gpp_step, ha, fetch_step_select st _ avg_quantity_sql_select]
      rw [hstep, ih]
      simp only [List.map_cons, List.sum_cons]
      rw [show itemPct st.db it = avgQuantity st.db.avances it.id by simp [itemPct, ha]]
      refine Prod.ext (by ring) (Prod.ext (by ring) rfl)
    · have hstep : gpp_step (tc, ex, st) it =
          (tc + it.total * pu it, ex + progOr0 it.progress / 100 * (it.total * pu it), st) := by
        simp [gpp_step, ha]
      rw [hstep, ih]
      simp only [List.map_cons, List.sum_cons]
      rw [show itemPct st.db it = progOr0 it.progress by simp [itemPct, ha]]
      refine Prod.ext (by ring) (Prod.ext (by ring) rfl)

/-- C9: computing the global metric is read-only — the statements
`get_project_progress` hands to `fetchall`/`fetchone` are SELECTs, the
run leaves the database state (and the tracked dirty flag) unchanged, and
it returns exactly `get_project_progress` of the initial database. -/
theorem C9_progress_read_only (st : RunState) :
    first_keyword items_query_sql = some "SELECT" ∧
    first_keyword avg_quantity_sql = some "SELECT" ∧
    gpp_run st = (get_project_progress st.db, st) := by
  refine ⟨items_query_sql_select, avg_quantity_sql_select, ?_⟩
  simp only [gpp_run]
  rw [fetch_step_select _ _ items_query_sql_select]
  by_cases he : st.db.items = []
  · rw [if_pos he, get_project_progress, if_pos he]
  · rw [if_neg he, gpp_foldl]
    simp only [zero_add]
    unfold get_project_progress total_cost executed
    rw [if_neg he]

lemma avgQuantity_bounds (avs : List Avance) (iid : Int)
    (h : ∀ av ∈ avs, ∀ q, av.quantity = some q → 0 ≤ q ∧ q ≤ 100) :
    0 ≤ avgQuantity avs iid ∧ avgQuantity avs iid ≤ 100 := by
  unfold avgQuantity
  set qs := (avs.filter (fun a => a.item_id == iid)).filterMap (fun a => a.quantity) with hqs
  have hmem : ∀ x ∈ qs, 0 ≤ x ∧ x ≤ 100 := by
    intro x hx
    rw [hqs] at hx
    obtain ⟨av, hav, hq⟩ := List.mem_filterMap.mp hx
    exact h av (List.mem_of_mem_filter hav) x hq
  by_cases h0 : qs.length = 0
  · rw [if_pos h0]
    norm_num
  · rw [if_neg h0]
    have hlen : (0 : ℚ) < qs.length := by
      exact_mod_cast Nat.pos_of_ne_zero h0
    constructor
    · exact div_nonneg (List.sum_nonneg fun x hx => (hmem x hx).1) hlen.le
    · rw [div_le_iff₀ hlen]
      calc qs.sum ≤ qs.length • (100 : ℚ) :=
            List.sum_le_card_nsmul qs 100 fun x hx => (hmem x hx).2
        _ = 100 * qs.length := by rw [nsmul_eq_mul]; ring

lemma itemPct_bounds (db : DB) (it : Item) (hit : it ∈ db.items)
    (hq : ∀ av ∈ db.avances, ∀ q, av.quantity = some q → 0 ≤ q ∧ q ≤ 100)
    (hp : ∀ it' ∈ db.items, ∀ p, it'.progress = some p → 0 ≤ p ∧ p ≤ 100) :
    0 ≤ itemPct db it ∧ itemPct db it ≤ 100 := by
  unfold itemPct
  by_cases ha : truthy it.active = true
  · rw [if_pos ha]
    exact avgQuantity_bounds db.avances it.id hq
  · rw [if_neg ha]
    unfold progOr0
    cases hp' : it.progress with
    | none => norm_num
    | some p => simpa using hp it hit p hp'

/-- C10: if all `avances.quantity` and `items.progress` lie in [0, 100]
and item totals and unit prices are non-negative, the global progress lies
in [0, 100]. -/
theorem C10_progress_in_range (db : DB)
    (hq : ∀ av ∈ db.avances, ∀ q, av.quantity = some q → 0 ≤ q ∧ q ≤ 100)
    (hp : ∀ it ∈ db.items, ∀ p, it.progress = some p → 0 ≤ p ∧ p ≤ 100)
    (hc : ∀ it ∈ db.items, 0 ≤ it.total ∧ 0 ≤ pu it) :
    0 ≤ get_project_progress db ∧ get_project_progress db ≤ 100 := by
  have hcost : ∀ it ∈ db.items, 0 ≤ it.total * pu it := fun it hit =>
    mul_nonneg (hc it hit).1 (hc it hit).2
  have hterm : ∀ it ∈ db.items,
      0 ≤ itemPct db it / 100 * (it.total * pu it) ∧
      itemPct db it / 100 * (it.total * pu it) ≤ it.total * pu it := by
    intro it hit
    obtain ⟨hp0, hp100⟩ := itemPct_bounds db it hit hq hp
    refine ⟨mul_nonneg (div_nonneg hp0 (by norm_num)) (hcost it hit), ?_⟩
    calc itemPct db it / 100 * (it.total * pu it)
        ≤ 1 * (it.total * pu it) := by
          refine mul_le_mul_of_nonneg_right ?_ (hcost it hit)
          rw [div_le_one (by norm_num : (0 : ℚ) < 100)]
          exact hp100
      _ = it.total * pu it := one_mul _
  have htc0 : 0 ≤ total_cost db := by
    refine List.sum_nonneg ?_
    intro x hx
    obtain ⟨it, hit, rfl⟩ := List.mem_map.mp hx
    exact hcost it hit
  have hex0 : 0 ≤ executed db := by
    refine List.sum_nonneg ?_
    intro x hx
    obtain ⟨it, hit, rfl⟩ := List.mem_map.mp hx
    exact (hterm it hit).1
  have hexle : executed db ≤ total_cost db :=
    List.sum_le_sum fun it hit => (hterm it hit).2
  unfold get_project_progress
  by_cases he : db.items = []
  · rw [if_pos he]
    norm_num
  · rw [if_neg he]
    by_cases ht : total_cost db ≠ 0
    · rw [if_pos ht]
      have htpos : 0 < total_cost db := lt_of_le_of_ne htc0 (Ne.symm ht)
      constructor
      · exact mul_nonneg (div_nonneg hex0 htc0) (by norm_num)
      · calc executed db / total_cost db * 100
            ≤ 1 * 100 := by
              refine mul_le_mul_of_nonneg_right ?_ (by norm_num)
              exact (div_le_one htpos).mpr hexle
          _ = 100 := one_mul _
    · rw [if_neg ht]
      norm_num

theorem C10_progress_in_range_witness :
    0 ≤ get_project_progress
        { items := [mkItem 1 "A" 2 (some 5) none (some 1) none],
          atajados := [mkAtajado 1 1],
          avances := [mkAvance 1 1 1 (some 50)] } ∧
    get_project_progress
        { items := [mkItem 1 "A" 2 (some 5) none (some 1) none],
          atajados := [mkAtajado 1 1],
          avances := [mkAvance 1 1 1 (some 50)] } ≤ 100 := by
  refine C10_progress_in_range _ ?_ ?_ ?_
  · intro av hav q hqq
    rw [List.mem_singleton] at hav
    subst hav
    simp only [mkAvance, Option.some.injEq] at hqq
    subst hqq
    norm_num
  · intro it hit p hpp
    rw [List.mem_singleton] at hit
    subst hit
    simp [mkItem] at hpp
  · intro it hit
    rw [List.mem_singleton] at hit
    subst hit
    constructor <;> norm_num [mkItem, pu]

/- Helper lemmas for C2: relating the three duplicated aggregation
routines under the schema's uniqueness invariant. -/

lemma py_round_zero (n : ℕ) : py_round 0 n = 0 := by
  norm_num [py_round, round_half_even]

lemma filter_item_len_le_one (avs : List Avance) (iid : Int)
    (hdist : avs.Pairwise (fun x y => x.item_id ≠ y.item_id)) :
    (avs.filter (fun a => a.item_id == iid)).length ≤ 1 := by
  induction avs with
  | nil => simp
  | cons a rest ih =>
    rcases List.pairwise_cons.mp hdist with ⟨hhead, htail⟩
    rw [List.filter_cons]
    by_cases hx : (a.item_id == iid) = true
    · rw [if_pos hx]
      have hnil : rest.filter (fun b => b.item_id == iid) = [] := by
        rw [List.filter_eq_nil_iff]
        intro b hb
        have hne := hhead b hb
        have ha : a.item_id = iid := by simpa using hx
        simp only [beq_iff_eq]
        exact fun hbe => hne (ha.trans hbe.symm)
      rw [hnil]
      simp
    · rw [if_neg hx]
      exact ih htail

lemma sum_div_len_of_len_le_one (qs : List ℚ) (h : qs.length ≤ 1) :
    (if qs.length = 0 then 0 else qs.sum / qs.length) = qs.sum := by
  match qs with
  | [] => simp
  | [x] => simp
  | x :: y :: t => simp at h

lemma avgQuantity_eq_sum (avs : List Avance) (iid : Int)
    (h1 : (avs.filter (fun a => a.item_id == iid)).length ≤ 1) :
    avgQuantity avs iid =
      ((avs.filter (fun a => a.item_id == iid)).filterMap (fun a => a.quantity)).sum := by
  unfold avgQuantity
  exact sum_div_len_of_len_le_one _ (le_trans (List.length_filterMap_le _ _) h1)

lemma item_id_pairwise_of_unique (avs : List Avance) (a : Int)
    (hV : avances_pairs_unique avs) (hava : ∀ av ∈ avs, av.atajado_id = a) :
    avs.Pairwise (fun x y => x.item_id ≠ y.item_id) := by
  refine List.Pairwise.imp_of_mem ?_ hV
  intro x y hx hy hpair hitem
  exact hpair (by rw [hava x hx, hava y hy, hitem])

lemma flatMap_eq_map_of_singleton {α β : Type} (l : List α) (f : α → List β) (g : α → β)
    (h : ∀ x ∈ l, f x = [g x]) : l.flatMap f = l.map g := by
  induction l with
  | nil => rfl
  | cons a rest ih =>
    rw [List.flatMap_cons, h a (List.mem_cons_self a rest),
      ih fun x hx => h x (List.mem_cons_of_mem a hx)]
    rfl

lemma left_join_row (avs : List Avance) (a : Int) (it : Item)
    (hava : ∀ av ∈ avs, av.atajado_id = a)
    (hdist : avs.Pairwise (fun x y => x.item_id ≠ y.item_id)) :
    (left_join_quantities avs a it).map
        (fun q => (it.total, it.incidence, q.getD 0)) =
      [(it.total, it.incidence, avgQuantity avs it.id)] := by
  unfold left_join_quantities
  have hfe : avs.filter (fun av => av.atajado_id == a && av.item_id == it.id) =
      avs.filter (fun av => av.item_id == it.id) := by
    apply List.filter_congr
    intro av hav
    have h := hava av hav
    simp [h]
  rw [hfe]
  have hlen := filter_item_len_le_one avs it.id hdist
  cases hf : avs.filter (fun av => av.item_id == it.id) with
  | nil =>
    simp [avgQuantity, hf]
  | cons av tail =>
    cases tail with
    | nil =>
      cases hq : av.quantity <;> simp [avgQuantity, hf, hq]
    | cons av2 t2 =>
      rw [hf] at hlen
      simp at hlen

/-- C2, counterexample: a database with exactly one atajado and a single
active (`active = 1`) item whose `unit_price` is 0 but whose `incidence`
is 1, with one 50 % avance.  `get_project_progress` weights by
`COALESCE(unit_price, incidence, 0) = 0` and returns 0, while
`AvanceTab._recalcular_estado` weights by `incidence = 1` and stores 50. -/
theorem C2_duplicated_formula_counterexample :
    recalcular_estado_pct
        { items := [mkItem 1 "A" 1 (some 0) (some 1) (some 1) none],
          atajados := [mkAtajado 1 1],
          avances := [mkAvance 1 1 1 (some 50)] } 1 ≠
      some (get_project_progress
        { items := [mkItem 1 "A" 1 (some 0) (some 1) (some 1) none],
          atajados := [mkAtajado 1 1],
          avances := [mkAvance 1 1 1 (some 50)] }) := by
  have h1 : get_project_progress
      { items := [mkItem 1 "A" 1 (some 0) (some 1) (some 1) none],
        atajados := [mkAtajado 1 1],
        avances := [mkAvance 1 1 1 (some 50)] } = 0 := by
    norm_num [get_project_progress, total_cost, mkItem, pu]
  have h2 : recalcular_estado_pct
      { items := [mkItem 1 "A" 1 (some 0) (some 1) (some 1) none],
        atajados := [mkAtajado 1 1],
        avances := [mkAvance 1 1 1 (some 50)] } 1 = some 50 := by
    simp +decide [recalcular_estado_pct, left_join_quantities, py_round, round_half_even,
      mkItem, mkAvance, mkAtajado, List.filter_cons, List.flatMap_cons,
      List.flatMap_nil]
    norm_num
  rw [h1, h2]
  intro hc
  exact absurd (Option.some.inj hc) (by norm_num)

/-- C2, amended: the duplicated aggregation formulas agree only up to the
unit-price convention, the active-flag convention and rounding.  For a
database with exactly one atajado, every item active with the flag stored
as exactly 1 (so the SQL `active = 1` filter and the Python truthiness
agree) and a non-NULL `incidence` (so no `TypeError` is raised), every
effective unit price `COALESCE(unit_price, incidence, 0)` equal to the
item's `incidence`, the `(atajado, item)` uniqueness invariant, and every
avance attached to the one atajado, `AvanceTab._recalcular_estado` stores
exactly `Database.get_project_progress` rounded to one decimal, and
`ItemsTab._calc_global_pct` returns the item's average `avances.quantity`
capped at 100 and rounded to the nearest integer. -/
theorem C2_duplicated_formula_amended (db : DB) (a : Int) (A : Atajado)
    (hA : db.atajados = [A])
    (hact : ∀ it ∈ db.items, it.active = some 1)
    (hinc : ∀ it ∈ db.items, it.incidence.isSome = true)
    (hpu : ∀ it ∈ db.items, pu it = it.incidence.getD 0)
    (hV : avances_pairs_unique db.avances)
    (hava : ∀ av ∈ db.avances, av.atajado_id = a) :
    recalcular_estado_pct db a = some (py_round (get_project_progress db) 1) ∧
    ∀ iid : Int, calc_global_pct db iid =
      py_round (min (avgQuantity db.avances iid) 100) 0 := by
  have hdist := item_id_pairwise_of_unique db.avances a hV hava
  have hN : (if db.atajados.length = 0 then (1 : ℚ) else (db.atajados.length : ℚ)) = 1 := by
    rw [hA]
    norm_num
  constructor
  · simp only [recalcular_estado_pct]
    rw [hN]
    rw [List.filter_eq_self.mpr fun it hit => by rw [hact it hit]; rfl]
    rw [flatMap_eq_map_of_singleton db.items _
      (fun it => (it.total, it.incidence, avgQuantity db.avances it.id))
      (fun it _ => left_join_row db.avances a it hava hdist)]
    have hall : ((db.items.map
        (fun it => (it.total, it.incidence, avgQuantity db.avances it.id))).all
          (fun r => r.2.1.isSome)) = true := by
      rw [List.all_eq_true]
      intro r hr
      obtain ⟨it, hit, rfl⟩ := List.mem_map.mp hr
      exact hinc it hit
    rw [if_pos hall]
    refine congrArg some ?_
    rw [List.map_map, List.map_map]
    have htv : (db.items.map ((fun (r : ℚ × Option ℚ × ℚ) => r.1 / 1 * r.2.1.getD 0) ∘
        (fun it => (it.total, it.incidence, avgQuantity db.avances it.id)))).sum =
        total_cost db := by
      unfold total_cost
      congr 1
      apply List.map_congr_left
      intro it hit
      simp only [Function.comp_apply]
      rw [div_one, hpu it hit]
    have hev : (db.items.map ((fun (r : ℚ × Option ℚ × ℚ) =>
        r.1 / 1 * r.2.1.getD 0 * r.2.2 / 100) ∘
        (fun it => (it.total, it.incidence, avgQuantity db.avances it.id)))).sum =
        executed db := by
      unfold executed
      congr 1
      apply List.map_congr_left
      intro it hit
      simp only [Function.comp_apply]
      rw [show itemPct db it = avgQuantity db.avances it.id by
        simp [itemPct, hact it hit, truthy]]
      rw [hpu it hit, div_one]
      ring
    rw [htv, hev]
    by_cases ht : total_cost db ≠ 0
    · rw [if_pos ht]
      have hne : db.items ≠ [] := by
        intro he
        exact ht (by simp [total_cost, he])
      unfold get_project_progress
      rw [if_neg hne, if_pos ht]
    · rw [if_neg ht]
      unfold get_project_progress
      by_cases he : db.items = []
      · rw [if_pos he, py_round_zero]
      · rw [if_neg he, if_neg ht, py_round_zero]
  · intro iid
    simp only [calc_global_pct]
    rw [hN, div_one]
    rw [avgQuantity_eq_sum db.avances iid (filter_item_len_le_one _ _ hdist)]

theorem C2_duplicated_formula_amended_witness :
    recalcular_estado_pct
        { items := [mkItem 1 "A" 1 none (some 2) (some 1) none],
          atajados := [mkAtajado 1 1],
          avances := [mkAvance 1 1 1 (some 50)] } 1 =
      some (py_round (get_project_progress
        { items := [mkItem 1 "A" 1 none (some 2) (some 1) none],
          atajados := [mkAtajado 1 1],
          avances := [mkAvance 1 1 1 (some 50)] }) 1) ∧
    calc_global_pct
        { items := [mkItem 1 "A" 1 none (some 2) (some 1) none],
          atajados := [mkAtajado 1 1],
          avances := [mkAvance 1 1 1 (some 50)] } 1 =
      py_round (min (avgQuantity
        [mkAvance 1 1 1 (some 50)] 1) 100) 0 := by
  have h := C2_duplicated_formula_amended
    { items := [mkItem 1 "A" 1 none (some 2) (some 1) none],
      atajados := [mkAtajado 1 1],
      avances := [mkAvance 1 1 1 (some 50)] } 1 (mkAtajado 1 1)
    rfl
    (by intro it hit; rw [List.mem_singleton] at hit; subst hit; rfl)
    (by intro it hit; rw [List.mem_singleton] at hit; subst hit; rfl)
    (by intro it hit; rw [List.mem_singleton] at hit; subst hit; rfl)
    (by simp [avances_pairs_unique])
    (by intro av hav; rw [List.mem_singleton] at hav; subst hav; rfl)
  exact ⟨h.1, h.2 1⟩

end Atajados
